import Mathlib

/-!
Perspective projection: a software rasterizer.

A shallow embedding of `src/main.cpp` (classes `V3`, `Transform`, `Primitive`,
`SceneObject`, `Scene`, `BufferPixel`, `Camera`) and theorems about it.

Modelling conventions.

* The C++ `float` type is read as an exact ordered field `α`
  (`[LinearOrderedField α]`): the definitions are computable and can be
  evaluated at `α = ℚ`, and the theorems that need trigonometry are stated at
  `α = ℝ`.  Rounding, `NaN` and `Inf` are outside the model.
* The `<cmath>` functions `cos`, `sin`, `tan` and the constants `M_PI`,
  `M_PI_2` are not part of the repository: every definition that calls them
  takes them as explicit parameters (`cosF`, `sinF`, `tanF`, `pi`, `piHalf`).
* The C++ `int` type is read as `ℤ`: overflow of `int` arithmetic and the
  conversion of a floating-point value that does not fit an `int` are outside
  the model.
* Member functions that mutate `this` return the new object.
* `std::vector` is a `List`; an out-of-range index is `none`.
-/

namespace PerspectiveProjection

variable {α : Type}

/-! ## class V3 -/

/-- Class `V3`: three `float` coordinates. -/
structure V3 (α : Type) where
  x : α
  y : α
  z : α
deriving DecidableEq, Repr

namespace V3

variable [LinearOrderedField α]

/-- The constructor `V3()`. -/
def zero : V3 α := ⟨0, 0, 0⟩

/-- The binary `operator +`. -/
def add (u v : V3 α) : V3 α := ⟨u.x + v.x, u.y + v.y, u.z + v.z⟩

/-- The binary `operator -`. -/
def sub (u v : V3 α) : V3 α := ⟨u.x - v.x, u.y - v.y, u.z - v.z⟩

/-- The unary `operator -` ("flip"). -/
def neg (u : V3 α) : V3 α := ⟨-u.x, -u.y, -u.z⟩

/-- The `operator * (float s)` ("scalar multiply"). -/
def smul (u : V3 α) (s : α) : V3 α := ⟨u.x * s, u.y * s, u.z * s⟩

/-- The `operator * (V3 v)` ("dot product"). -/
def dot (u v : V3 α) : α := u.x * v.x + u.y * v.y + u.z * v.z

/-- The `operator &` ("piecewise multiply"). -/
def pmul (u v : V3 α) : V3 α := ⟨u.x * v.x, u.y * v.y, u.z * v.z⟩

/-- The member function `V3::rotate`, statement by statement: a copy `rotated`
of the vector is updated in place through the scratch variable `temp`. -/
def rotate (v : V3 α) (cosX sinX cosY sinY cosZ sinZ : α) : V3 α :=
  let rotated : V3 α := ⟨v.x, v.y, v.z⟩
  -- y axis
  let temp := rotated.x * cosY + rotated.z * sinY
  let rotated : V3 α := { rotated with z := -rotated.x * sinY + rotated.z * cosY }
  let rotated : V3 α := { rotated with x := temp }
  -- x axis
  let temp := rotated.y * cosX - rotated.z * sinX
  let rotated : V3 α := { rotated with z := rotated.y * sinX + rotated.z * cosX }
  let rotated : V3 α := { rotated with y := temp }
  -- z axis
  let temp := rotated.x * cosZ - rotated.y * sinZ
  let rotated : V3 α := { rotated with y := rotated.x * sinZ + rotated.y * cosZ }
  let rotated : V3 α := { rotated with x := temp }
  rotated

/-- Specification side (not from the source): the Y-axis step
`(x, z) ↦ (x*cosY + z*sinY, -x*sinY + z*cosY)`, `y` kept. -/
def specRotY (cosY sinY : α) (v : V3 α) : V3 α :=
  ⟨v.x * cosY + v.z * sinY, v.y, -v.x * sinY + v.z * cosY⟩

/-- Specification side (not from the source): the X-axis step
`(y, z) ↦ (y*cosX - z*sinX, y*sinX + z*cosX)`, `x` kept. -/
def specRotX (cosX sinX : α) (v : V3 α) : V3 α :=
  ⟨v.x, v.y * cosX - v.z * sinX, v.y * sinX + v.z * cosX⟩

/-- Specification side (not from the source): the Z-axis step
`(x, y) ↦ (x*cosZ - y*sinZ, x*sinZ + y*cosZ)`, `z` kept. -/
def specRotZ (cosZ sinZ : α) (v : V3 α) : V3 α :=
  ⟨v.x * cosZ - v.y * sinZ, v.x * sinZ + v.y * cosZ, v.z⟩

/-- The `operator ^`, commented "cross product" in the source. -/
def cross (u v : V3 α) : V3 α :=
  ⟨u.y * v.z - u.z * v.y,
   u.x * v.z - u.z * v.x,
   u.x * v.y - u.y * v.x⟩

/-- Specification side (not from the source): the cross product of two
vectors, `(u.y*v.z - u.z*v.y, u.z*v.x - u.x*v.z, u.x*v.y - u.y*v.x)`. -/
def specCross (u v : V3 α) : V3 α :=
  ⟨u.y * v.z - u.z * v.y,
   u.z * v.x - u.x * v.z,
   u.x * v.y - u.y * v.x⟩

end V3

/-! ## class Transform -/

/-- Class `Transform`: pose and the cached cosine and sine of each angle. -/
structure Transform (α : Type) where
  pos : V3 α
  scale : V3 α
  rot : V3 α
  cosX : α
  sinX : α
  cosY : α
  sinY : α
  cosZ : α
  sinZ : α
deriving DecidableEq, Repr

namespace Transform

variable [LinearOrderedField α]

/-- The member function `Transform::setRotX`. -/
def setRotX (cosF sinF : α → α) (t : Transform α) (rotX : α) : Transform α :=
  let t : Transform α := { t with rot := { t.rot with x := rotX } }
  let t : Transform α := { t with cosX := cosF rotX }
  { t with sinX := sinF rotX }

/-- The member function `Transform::setRotY`. -/
def setRotY (cosF sinF : α → α) (t : Transform α) (rotY : α) : Transform α :=
  let t : Transform α := { t with rot := { t.rot with y := rotY } }
  let t : Transform α := { t with cosY := cosF rotY }
  { t with sinY := sinF rotY }

/-- The member function `Transform::setRotZ`. -/
def setRotZ (cosF sinF : α → α) (t : Transform α) (rotZ : α) : Transform α :=
  let t : Transform α := { t with rot := { t.rot with z := rotZ } }
  let t : Transform α := { t with cosZ := cosF rotZ }
  { t with sinZ := sinF rotZ }

/-- The member function `Transform::changeRotX`. -/
def changeRotX (cosF sinF : α → α) (t : Transform α) (deltaRotX : α) : Transform α :=
  t.setRotX cosF sinF (t.rot.x + deltaRotX)

/-- The member function `Transform::changeRotY`. -/
def changeRotY (cosF sinF : α → α) (t : Transform α) (deltaRotY : α) : Transform α :=
  t.setRotY cosF sinF (t.rot.y + deltaRotY)

/-- The member function `Transform::changeRotZ`. -/
def changeRotZ (cosF sinF : α → α) (t : Transform α) (deltaRotZ : α) : Transform α :=
  t.setRotZ cosF sinF (t.rot.z + deltaRotZ)

/-- The member function `Transform::setRot`. -/
def setRot (cosF sinF : α → α) (t : Transform α) (rotX rotY rotZ : α) : Transform α :=
  let t := t.setRotX cosF sinF rotX
  let t := t.setRotY cosF sinF rotY
  t.setRotZ cosF sinF rotZ

/-- The object a constructor of `Transform` starts from: the three `V3`
members are default-constructed; the six `float` members are uninitialised in
C++ (every constructor overwrites them through `setRot`), here `0`. -/
def uninit : Transform α := ⟨V3.zero, V3.zero, V3.zero, 0, 0, 0, 0, 0, 0⟩

/-- The constructor `Transform()`. -/
def default (cosF sinF : α → α) : Transform α :=
  let t : Transform α := uninit
  let t : Transform α := { t with pos := V3.zero }
  let t : Transform α := { t with scale := ⟨1, 1, 1⟩ }
  t.setRot cosF sinF 0 0 0

/-- The constructor `Transform(V3 pos, V3 scale, V3 rot)`. -/
def ofPose (cosF sinF : α → α) (pos scale rot : V3 α) : Transform α :=
  let t : Transform α := uninit
  let t : Transform α := { t with pos := pos }
  let t : Transform α := { t with scale := scale }
  t.setRot cosF sinF rot.x rot.y rot.z

/-- The call `v.rotate(transform.cosX, transform.sinX, transform.cosY,
transform.sinY, transform.cosZ, transform.sinZ)` as `Primitive::transformGeometry`
writes it: a vector rotated with the cached values of a transform. -/
def applyRotation (t : Transform α) (v : V3 α) : V3 α :=
  v.rotate t.cosX t.sinX t.cosY t.sinY t.cosZ t.sinZ

/-- One call of a rotation-mutating member function of `Transform`, with its
arguments. -/
inductive RotOp (α : Type) where
  | setRotX (rotX : α)
  | setRotY (rotY : α)
  | setRotZ (rotZ : α)
  | setRot (rotX rotY rotZ : α)
  | changeRotX (deltaRotX : α)
  | changeRotY (deltaRotY : α)
  | changeRotZ (deltaRotZ : α)

/-- Runs one call on a transform. -/
def applyOp (cosF sinF : α → α) (t : Transform α) : RotOp α → Transform α
  | .setRotX rotX => t.setRotX cosF sinF rotX
  | .setRotY rotY => t.setRotY cosF sinF rotY
  | .setRotZ rotZ => t.setRotZ cosF sinF rotZ
  | .setRot rotX rotY rotZ => t.setRot cosF sinF rotX rotY rotZ
  | .changeRotX deltaRotX => t.changeRotX cosF sinF deltaRotX
  | .changeRotY deltaRotY => t.changeRotY cosF sinF deltaRotY
  | .changeRotZ deltaRotZ => t.changeRotZ cosF sinF deltaRotZ

/-- Runs a sequence of calls, first to last. -/
def applyOps (cosF sinF : α → α) (t : Transform α) (ops : List (RotOp α)) : Transform α :=
  ops.foldl (applyOp cosF sinF) t

/-- The invariant of the cached values: each equals the cosine or sine of the
stored angle of its axis. -/
def CacheCoherent (cosF sinF : α → α) (t : Transform α) : Prop :=
  t.cosX = cosF t.rot.x ∧ t.sinX = sinF t.rot.x ∧
  t.cosY = cosF t.rot.y ∧ t.sinY = sinF t.rot.y ∧
  t.cosZ = cosF t.rot.z ∧ t.sinZ = sinF t.rot.z

end Transform

/-! ## class Primitive -/

/-- Class `Primitive`: a triangle, a flag and two colours. -/
structure Primitive (α : Type) where
  p1 : V3 α
  p2 : V3 α
  p3 : V3 α
  cullable : Bool
  ambientColor : V3 α
  diffuseColor : V3 α
deriving DecidableEq, Repr

namespace Primitive

variable [LinearOrderedField α]

/-- The member function `Primitive::transformGeometry`. -/
def transformGeometry (p : Primitive α) (transform : Transform α) (rotateFirst : Bool) :
    Primitive α :=
  if rotateFirst then
    ⟨((p.p1.pmul transform.scale).rotate transform.cosX transform.sinX transform.cosY
        transform.sinY transform.cosZ transform.sinZ).add transform.pos,
     ((p.p2.pmul transform.scale).rotate transform.cosX transform.sinX transform.cosY
        transform.sinY transform.cosZ transform.sinZ).add transform.pos,
     ((p.p3.pmul transform.scale).rotate transform.cosX transform.sinX transform.cosY
        transform.sinY transform.cosZ transform.sinZ).add transform.pos,
     p.cullable, p.ambientColor, p.diffuseColor⟩
  else
    ⟨((p.p1.pmul transform.scale).add transform.pos).rotate transform.cosX transform.sinX
        transform.cosY transform.sinY transform.cosZ transform.sinZ,
     ((p.p2.pmul transform.scale).add transform.pos).rotate transform.cosX transform.sinX
        transform.cosY transform.sinY transform.cosZ transform.sinZ,
     ((p.p3.pmul transform.scale).add transform.pos).rotate transform.cosX transform.sinX
        transform.cosY transform.sinY transform.cosZ transform.sinZ,
     p.cullable, p.ambientColor, p.diffuseColor⟩

/-- The vertices of a primitive by position: `0 ↦ p1`, `1 ↦ p2`, `2 ↦ p3`
(an accessor used to state properties of "every vertex"). -/
def vertex (p : Primitive α) : Fin 3 → V3 α
  | 0 => p.p1
  | 1 => p.p2
  | 2 => p.p3

/-- Specification side (not from the source): all three vertices of the
primitive have the value `value` at the coordinate `coord`, that is, the
triangle lies in that axis-parallel plane. -/
def LiesIn (p : Primitive α) (coord : V3 α → α) (value : α) : Prop :=
  coord p.p1 = value ∧ coord p.p2 = value ∧ coord p.p3 = value

end Primitive

/-! ## classes SceneObject, SceneLight, Scene, BufferPixel -/

/-- Class `SceneObject`: an ordered list of primitives and one transform. -/
structure SceneObject (α : Type) where
  primitives : List (Primitive α)
  internalTransform : Transform α

namespace SceneObject

variable [LinearOrderedField α]

/-- The member function `SceneObject::transformGeometry`: the loop pushes the
transformed primitives one by one onto `transformedPrimitives`. -/
def transformGeometry (o : SceneObject α) (transform : Transform α) (rotateFirst : Bool) :
    SceneObject α :=
  let transformedPrimitives : List (Primitive α) :=
    o.primitives.foldl
      (fun transformedPrimitives p =>
        transformedPrimitives ++ [p.transformGeometry transform rotateFirst])
      []
  ⟨transformedPrimitives, o.internalTransform⟩

/-- The static member function `SceneObject::ColoredUnitCube`. -/
def ColoredUnitCube (cosF sinF : α → α) (pos : V3 α) : SceneObject α :=
  ⟨[ -- back face
     ⟨⟨-1, -1, 1⟩, ⟨1, -1, 1⟩, ⟨1, 1, 1⟩, true, ⟨255, 0, 0⟩, ⟨255, 0, 0⟩⟩,
     ⟨⟨-1, -1, 1⟩, ⟨1, 1, 1⟩, ⟨-1, 1, 1⟩, true, ⟨255, 0, 0⟩, ⟨255, 0, 0⟩⟩,
     -- right face
     ⟨⟨1, -1, 1⟩, ⟨1, -1, -1⟩, ⟨1, 1, -1⟩, true, ⟨0, 0, 255⟩, ⟨0, 0, 255⟩⟩,
     ⟨⟨1, -1, 1⟩, ⟨1, 1, -1⟩, ⟨1, 1, 1⟩, true, ⟨0, 0, 255⟩, ⟨0, 0, 255⟩⟩,
     -- front face
     ⟨⟨1, -1, -1⟩, ⟨-1, -1, -1⟩, ⟨-1, 1, -1⟩, true, ⟨0, 255, 0⟩, ⟨0, 255, 0⟩⟩,
     ⟨⟨1, -1, -1⟩, ⟨-1, 1, -1⟩, ⟨1, 1, -1⟩, true, ⟨0, 255, 0⟩, ⟨0, 255, 0⟩⟩,
     -- left face
     ⟨⟨-1, -1, -1⟩, ⟨-1, -1, 1⟩, ⟨-1, 1, 1⟩, true, ⟨255, 100, 0⟩, ⟨255, 100, 0⟩⟩,
     ⟨⟨-1, -1, -1⟩, ⟨-1, 1, 1⟩, ⟨-1, 1, -1⟩, true, ⟨255, 100, 0⟩, ⟨255, 100, 0⟩⟩,
     -- bottom face
     ⟨⟨-1, -1, -1⟩, ⟨1, -1, -1⟩, ⟨1, -1, 1⟩, true, ⟨255, 0, 255⟩, ⟨255, 0, 255⟩⟩,
     ⟨⟨-1, -1, -1⟩, ⟨1, -1, 1⟩, ⟨-1, -1, 1⟩, true, ⟨255, 0, 255⟩, ⟨255, 0, 255⟩⟩,
     -- top face
     ⟨⟨-1, 1, -1⟩, ⟨1, 1, 1⟩, ⟨1, 1, -1⟩, true, ⟨255, 255, 0⟩, ⟨255, 255, 0⟩⟩,
     ⟨⟨-1, 1, -1⟩, ⟨-1, 1, 1⟩, ⟨1, 1, 1⟩, true, ⟨255, 255, 0⟩, ⟨255, 255, 0⟩⟩],
   Transform.ofPose cosF sinF pos ⟨1, 1, 1⟩ V3.zero⟩

/-- All vertices of the primitives of an object, primitive by primitive
(used to state properties of the "set of vertices"). -/
def vertices (o : SceneObject α) : List (V3 α) :=
  o.primitives.flatMap fun p => [p.p1, p.p2, p.p3]

/-- Specification side (not from the source): the 8 corners `(±1, ±1, ±1)`. -/
def unitCubeCorners : List (V3 α) :=
  [⟨1, 1, 1⟩, ⟨1, 1, -1⟩, ⟨1, -1, 1⟩, ⟨1, -1, -1⟩,
   ⟨-1, 1, 1⟩, ⟨-1, 1, -1⟩, ⟨-1, -1, 1⟩, ⟨-1, -1, -1⟩]

/-- Specification side (not from the source): the 8 corners offset by `pos`,
`(±1, ±1, ±1) + pos`. -/
def offsetCubeCorners (pos : V3 α) : List (V3 α) :=
  unitCubeCorners.map fun corner => corner.add pos

end SceneObject

/-- Class `SceneLight`. -/
structure SceneLight (α : Type) where
  pos : V3 α
  color : V3 α
  strength : α

/-- Class `Scene`. -/
structure Scene (α : Type) where
  objects : List (SceneObject α)
  lights : List (SceneLight α)

/-- Class `BufferPixel`: a depth and a colour. -/
structure BufferPixel (α : Type) where
  z : α
  color : V3 α
deriving DecidableEq, Repr

namespace BufferPixel

variable [LinearOrderedField α]

/-- In `Camera::render`, both fill loops: the depth test and write
`if(buffer[intX][intY].z > z){ ... .z = z; ... .color = ambientColor; }`
on the cell `buffer[intX][intY]`. -/
def depthWrite (cell : BufferPixel α) (z : α) (ambientColor : V3 α) : BufferPixel α :=
  if cell.z > z then
    let cell : BufferPixel α := { cell with z := z }
    { cell with color := ambientColor }
  else
    cell

end BufferPixel

/-- The local `buffer` of `Camera::render`, a vector of columns:
`buffer[i][j]` is cell `j` of column `i`. -/
abbrev Buffer (α : Type) := List (List (BufferPixel α))

namespace Buffer

/-- The read `buffer[i][j]` with `int` indices; outside the vector the C++
behaviour is undefined, here `none`. -/
def get? (buffer : Buffer α) (i j : ℤ) : Option (BufferPixel α) :=
  if 0 ≤ i ∧ 0 ≤ j then
    (buffer[i.toNat]?).bind (fun column => column[j.toNat]?)
  else
    none

/-- The shape `Camera::render` allocates: `2 * canvasWidth` columns of
`2 * canvasHeight` cells each. -/
def HasSize (buffer : Buffer α) (canvasWidth canvasHeight : ℤ) : Prop :=
  buffer.length = (2 * canvasWidth).toNat ∧
    ∀ column ∈ buffer, column.length = (2 * canvasHeight).toNat

end Buffer

/-- The conversion of a floating-point value to `int`: the fractional part is
discarded (truncation toward zero).  The C++ conversion is undefined when the
truncated value does not fit an `int`; the model has no such bound. -/
def truncToInt [LinearOrderedField α] [FloorRing α] (x : α) : ℤ :=
  if 0 ≤ x then ⌊x⌋ else ⌈x⌉

/-- The arguments of one `SDL_SetRenderDrawColor(renderer, r, g, b, 255)`,
`SDL_RenderDrawPoint(renderer, x, y)` pair: the `int` values `r`, `g`, `b`
computed by `Camera::render` and the pixel position. -/
structure DrawPoint where
  x : ℤ
  y : ℤ
  r : ℤ
  g : ℤ
  b : ℤ
deriving DecidableEq, Repr

/-- Class `Camera`. -/
structure Camera (α : Type) where
  pos : V3 α
  rot : V3 α
  fov : α
  focal : α
  min : α
  max : α
  renderProcessLogs : Bool
deriving DecidableEq, Repr

namespace Camera

variable [LinearOrderedField α]

/-- The constructor `Camera()`; `renderProcessLogs` has the member initialiser
`false`. -/
def default : Camera α := ⟨V3.zero, V3.zero, 90, 1, 0, 100, false⟩

/-- The constructor `Camera(pos, rot, fov, focal, min, max)`. -/
def ofParams (pos rot : V3 α) (fov focal min max : α) : Camera α :=
  ⟨pos, rot, fov, focal, min, max, false⟩

/-- The member function `Camera::moveForward`. -/
def moveForward (cosF sinF : α → α) (piHalf : α) (cam : Camera α) (distance : α) : Camera α :=
  let cam : Camera α :=
    { cam with pos := { cam.pos with x := cam.pos.x + distance * cosF (cam.rot.y + piHalf) } }
  { cam with pos := { cam.pos with z := cam.pos.z + distance * sinF (cam.rot.y + piHalf) } }

/-- The member function `Camera::moveBackward`. -/
def moveBackward (cosF sinF : α → α) (piHalf : α) (cam : Camera α) (distance : α) : Camera α :=
  let cam : Camera α :=
    { cam with pos := { cam.pos with x := cam.pos.x - distance * cosF (cam.rot.y + piHalf) } }
  { cam with pos := { cam.pos with z := cam.pos.z - distance * sinF (cam.rot.y + piHalf) } }

/-- In `Camera::render`: the local `cameraTransform`. -/
def cameraTransform (cosF sinF : α → α) (cam : Camera α) : Transform α :=
  Transform.ofPose cosF sinF cam.pos.neg ⟨1, 1, 1⟩ cam.rot

/-- In `Camera::render`: the local `fovCoefficient`; `canvasWidth` is an `int`
converted to floating point. -/
def fovCoefficient (tanF : α → α) (pi : α) (cam : Camera α) (canvasWidth : ℤ) : α :=
  (canvasWidth : α) / (cam.focal * tanF (cam.fov * pi / 360))

/-- In `Camera::render`: the condition of the `if` that guards
`primitives.push_back(objectPrimitives[j])`. -/
def inDepthRange (cam : Camera α) (p : Primitive α) : Bool :=
  decide (p.p1.z > cam.min) && decide (p.p2.z > cam.min) && decide (p.p3.z > cam.min) &&
    decide (p.p1.z < cam.max) && decide (p.p2.z < cam.max) && decide (p.p3.z < cam.max)

/-- In `Camera::render`: the local `objectPrimitives` of one scene object, the
object's primitives in camera space. -/
def objectPrimitives (cosF sinF : α → α) (cam : Camera α) (object : SceneObject α) :
    List (Primitive α) :=
  ((object.transformGeometry object.internalTransform true).transformGeometry
    (cam.cameraTransform cosF sinF) false).primitives

/-- In `Camera::render`: the two nested loops that fill the local vector
`primitives`, the primitives handed to the rasterization loop. -/
def collectPrimitives (cosF sinF : α → α) (cam : Camera α) (scene : Scene α) :
    List (Primitive α) :=
  scene.objects.foldl
    (fun primitives object =>
      (cam.objectPrimitives cosF sinF object).foldl
        (fun primitives p => if cam.inDepthRange p then primitives ++ [p] else primitives)
        primitives)
    []

/-- The camera-space primitives of a scene in the order in which
`Camera::render` visits them: `objectPrimitives[j]` for the objects `i` in
order and, within an object, `j` in order. -/
def cameraSpacePrimitives (cosF sinF : α → α) (cam : Camera α) (scene : Scene α) :
    List (Primitive α) :=
  scene.objects.flatMap (cam.objectPrimitives cosF sinF)

/-- In `Camera::render`: the buffer initialisation, every cell
`BufferPixel(max + 1, V3(0, 0, 0))`. -/
def initBuffer (cam : Camera α) (canvasWidth canvasHeight : ℤ) : Buffer α :=
  List.replicate (2 * canvasWidth).toNat
    (List.replicate (2 * canvasHeight).toNat ⟨cam.max + 1, ⟨0, 0, 0⟩⟩)

/-- In `Camera::render`: the six statements `primitives[i].pK.x *= fovCoefficient /
primitives[i].pK.z; primitives[i].pK.y *= fovCoefficient / primitives[i].pK.z;`. -/
def perspectiveDivide (fovCoefficient : α) (p : Primitive α) : Primitive α :=
  let p : Primitive α := { p with p1 := { p.p1 with x := p.p1.x * (fovCoefficient / p.p1.z) } }
  let p : Primitive α := { p with p1 := { p.p1 with y := p.p1.y * (fovCoefficient / p.p1.z) } }
  let p : Primitive α := { p with p2 := { p.p2 with x := p.p2.x * (fovCoefficient / p.p2.z) } }
  let p : Primitive α := { p with p2 := { p.p2 with y := p.p2.y * (fovCoefficient / p.p2.z) } }
  let p : Primitive α := { p with p3 := { p.p3 with x := p.p3.x * (fovCoefficient / p.p3.z) } }
  let p : Primitive α := { p with p3 := { p.p3 with y := p.p3.y * (fovCoefficient / p.p3.z) } }
  p

/-- In `Camera::render`: the six statements `primitives[i].pK.x += canvasWidth;
primitives[i].pK.y = canvasHeight - primitives[i].pK.y;`. -/
def screenMap (canvasWidth canvasHeight : ℤ) (p : Primitive α) : Primitive α :=
  let p : Primitive α := { p with p1 := { p.p1 with x := p.p1.x + (canvasWidth : α) } }
  let p : Primitive α := { p with p1 := { p.p1 with y := (canvasHeight : α) - p.p1.y } }
  let p : Primitive α := { p with p2 := { p.p2 with x := p.p2.x + (canvasWidth : α) } }
  let p : Primitive α := { p with p2 := { p.p2 with y := (canvasHeight : α) - p.p2.y } }
  let p : Primitive α := { p with p3 := { p.p3 with x := p.p3.x + (canvasWidth : α) } }
  let p : Primitive α := { p with p3 := { p.p3 with y := (canvasHeight : α) - p.p3.y } }
  p

/-- In `Camera::render`: the projection stage applied to `primitives[i]`, the
perspective divide followed by the mapping to screen coordinates. -/
def projectPrimitive (tanF : α → α) (pi : α) (cam : Camera α) (canvasWidth canvasHeight : ℤ)
    (p : Primitive α) : Primitive α :=
  screenMap canvasWidth canvasHeight
    (perspectiveDivide (cam.fovCoefficient tanF pi canvasWidth) p)

/-- In `Camera::render`: the body of the downsample loops for the output pixel
`(x, y)`: four reads of the buffer, three `int` channels, one draw call. -/
def downsamplePixel [FloorRing α] (buffer : Buffer α) (x y : ℤ) : Option DrawPoint :=
  (buffer.get? (2 * x) (2 * y)).bind fun p1 =>
  (buffer.get? (2 * x + 1) (2 * y)).bind fun p2 =>
  (buffer.get? (2 * x + 1) (2 * y + 1)).bind fun p3 =>
  (buffer.get? (2 * x) (2 * y + 1)).bind fun p4 =>
    let c1 := p1.color
    let c2 := p2.color
    let c3 := p3.color
    let c4 := p4.color
    let r : ℤ := truncToInt (0.25 * (c1.x + c2.x + c3.x + c4.x))
    let g : ℤ := truncToInt (0.25 * (c1.y + c2.y + c3.y + c4.y))
    let b : ℤ := truncToInt (0.25 * (c1.z + c2.z + c3.z + c4.z))
    some ⟨x, y, r, g, b⟩

/-- In `Camera::render`: the downsample loops, `x` from `0` below `canvasWidth`
and, inside, `y` from `0` below `canvasHeight`; the draw calls in order. -/
def downsample [FloorRing α] (buffer : Buffer α) (canvasWidth canvasHeight : ℤ) :
    List (Option DrawPoint) :=
  (List.range canvasWidth.toNat).flatMap fun (x : ℕ) =>
    (List.range canvasHeight.toNat).map fun (y : ℕ) =>
      downsamplePixel buffer (x : ℤ) (y : ℤ)

/-- In `Camera::render`: the ordering of the three projected vertices
("a really confusing way to sort a, b, c"): `index` is moved to a vertex of
largest `y`, that vertex is `a` and is erased from `vertices`, and the two that
remain are `b` and `c`, the one of larger `y` first.  The default of the list
reads is never used, every index being in range. -/
def sortVertices (p1 p2 p3 : V3 α) : V3 α × V3 α × V3 α :=
  let vertices : List (V3 α) := [p1, p2, p3]
  let index : ℕ := 0
  let index : ℕ :=
    if (vertices.getD 1 V3.zero).y > (vertices.getD 0 V3.zero).y then 1 else index
  let index : ℕ :=
    if (vertices.getD 2 V3.zero).y > (vertices.getD index V3.zero).y then 2 else index
  let a := vertices.getD index V3.zero
  let vertices := vertices.eraseIdx index
  if (vertices.getD 0 V3.zero).y > (vertices.getD 1 V3.zero).y then
    (a, vertices.getD 0 V3.zero, vertices.getD 1 V3.zero)
  else
    (a, vertices.getD 1 V3.zero, vertices.getD 0 V3.zero)

/-- In `Camera::render`: the triangle decomposition.  The first component is
the vector `topFlat` (`some` exactly when `hasTopFlat` is set), the second the
vector `bottomFlat` (`some` exactly when `hasBottomFlat` is set). -/
def decompose (a b c : V3 α) :
    Option (V3 α × V3 α × V3 α) × Option (V3 α × V3 α × V3 α) :=
  if a.y = b.y then
    (some (a, b, c), none)
  else if b.y = c.y then
    (none, some (a, b, c))
  else
    let dx := (c.x - a.x) / (c.y - a.y)
    let dz := (c.z - a.z) / (c.y - a.y)
    let d : V3 α := ⟨a.x - dx * (a.y - b.y), b.y, a.z - dz * (a.y - b.y)⟩
    (some (b, d, c), some (a, b, d))

end Camera

/-- The locals `denominator`, `numerator1`, `numerator2`, `w1`, `w2`, `w3`
and `z` of the pixel loop body of `Camera::render`. -/
structure Barycentric (α : Type) where
  denominator : α
  numerator1 : α
  numerator2 : α
  w1 : α
  w2 : α
  w3 : α
  z : α
deriving DecidableEq, Repr

namespace Camera

variable [LinearOrderedField α]

/-- In `Camera::render`: the barycentric weights and the interpolated depth
computed by the pixel loop body of the flat-top fill and, with the same text,
of the flat-bottom fill, for the sub-triangle `(a, b, c)` and the sample
`(x, y)`. -/
def barycentric (a b c : V3 α) (x y : α) : Barycentric α :=
  let denominator := (b.y - c.y) * (a.x - c.x) + (c.x - b.x) * (a.y - c.y)
  let numerator1 := (b.y - c.y) * (x - c.x) + (c.x - b.x) * (y - c.y)
  let numerator2 := (c.y - a.y) * (x - c.x) + (a.x - c.x) * (y - c.y)
  let w1 := numerator1 / denominator
  let w2 := numerator2 / denominator
  let w3 := 1 - w1 - w2
  let z := a.z * w1 + b.z * w2 + c.z * w3
  ⟨denominator, numerator1, numerator2, w1, w2, w3, z⟩

end Camera

/-! ## Theorems -/

/-! ### Helper lemmas -/

section Helpers

theorem Buffer.get?_of_hasSize (buffer : Buffer α) (canvasWidth canvasHeight i j : ℤ)
    (hsize : buffer.HasSize canvasWidth canvasHeight)
    (hi : 0 ≤ i ∧ i < 2 * canvasWidth) (hj : 0 ≤ j ∧ j < 2 * canvasHeight) :
    ∃ cell, buffer.get? i j = some cell := by
  obtain ⟨hlen, hcol⟩ := hsize
  have hi' : i.toNat < buffer.length := by rw [hlen]; omega
  have hc := hcol (buffer.get ⟨i.toNat, hi'⟩) (List.get_mem _ _ _)
  have hj' : j.toNat < (buffer.get ⟨i.toNat, hi'⟩).length := by rw [hc]; omega
  refine ⟨(buffer.get ⟨i.toNat, hi'⟩).get ⟨j.toNat, hj'⟩, ?_⟩
  simp [Buffer.get?, hi.1, hj.1, List.getElem?_eq_getElem hi', List.getElem?_eq_getElem hj']

variable [LinearOrderedField α]

theorem foldl_push_eq_append_map {β γ : Type} (f : β → γ) (l : List β) (init : List γ) :
    l.foldl (fun acc b => acc ++ [f b]) init = init ++ l.map f := by
  induction l generalizing init with
  | nil => simp
  | cons b l ih => simp [ih]

theorem foldl_push_if_eq_append_filter {β : Type} (f : β → Bool) (l : List β)
    (init : List β) :
    l.foldl (fun acc b => if f b then acc ++ [b] else acc) init = init ++ l.filter f := by
  induction l generalizing init with
  | nil => simp
  | cons b l ih =>
    cases hb : f b <;> simp [ih, hb, List.filter_cons]

theorem foldl_append_filter_eq {β γ : Type} (g : β → List γ) (f : γ → Bool) (l : List β)
    (init : List γ) :
    l.foldl (fun acc b => (g b).foldl (fun acc c => if f c then acc ++ [c] else acc) acc) init =
      init ++ (l.flatMap g).filter f := by
  induction l generalizing init with
  | nil => simp
  | cons b l ih =>
    rw [List.foldl_cons, ih, foldl_push_if_eq_append_filter, List.flatMap_cons,
      List.filter_append, List.append_assoc]

theorem SceneObject.transformGeometry_primitives (o : SceneObject α) (t : Transform α)
    (rotateFirst : Bool) :
    (o.transformGeometry t rotateFirst).primitives =
      o.primitives.map (fun p => p.transformGeometry t rotateFirst) := by
  simp [SceneObject.transformGeometry, foldl_push_eq_append_map]

theorem Camera.inDepthRange_iff (cam : Camera α) (p : Primitive α) :
    cam.inDepthRange p = true ↔ ∀ i : Fin 3, cam.min < (p.vertex i).z ∧ (p.vertex i).z < cam.max := by
  simp only [Camera.inDepthRange, Bool.and_eq_true, decide_eq_true_eq, gt_iff_lt]
  constructor
  · rintro ⟨⟨⟨⟨⟨h1, h2⟩, h3⟩, h4⟩, h5⟩, h6⟩ i
    fin_cases i
    · exact ⟨h1, h4⟩
    · exact ⟨h2, h5⟩
    · exact ⟨h3, h6⟩
  · intro h
    exact ⟨⟨⟨⟨⟨(h 0).1, (h 1).1⟩, (h 2).1⟩, (h 0).2⟩, (h 1).2⟩, (h 2).2⟩

theorem Camera.collectPrimitives_eq_filter (cosF sinF : α → α) (cam : Camera α)
    (scene : Scene α) :
    cam.collectPrimitives cosF sinF scene =
      (cam.cameraSpacePrimitives cosF sinF scene).filter cam.inDepthRange := by
  simp [Camera.collectPrimitives, Camera.cameraSpacePrimitives, foldl_append_filter_eq]

theorem truncToInt_intCast [FloorRing α] (n : ℤ) : truncToInt (n : α) = n := by
  unfold truncToInt
  split <;> simp

theorem Transform.cacheCoherent_applyOp (cosF sinF : α → α) (t : Transform α)
    (op : Transform.RotOp α) (h : t.CacheCoherent cosF sinF) :
    (t.applyOp cosF sinF op).CacheCoherent cosF sinF := by
  obtain ⟨h1, h2, h3, h4, h5, h6⟩ := h
  cases op <;>
    simp [Transform.applyOp, Transform.CacheCoherent, Transform.setRot, Transform.setRotX,
      Transform.setRotY, Transform.setRotZ, Transform.changeRotX, Transform.changeRotY,
      Transform.changeRotZ, h1, h2, h3, h4, h5, h6]

theorem Transform.cacheCoherent_applyOps (cosF sinF : α → α) (ops : List (Transform.RotOp α))
    (t : Transform α) (h : t.CacheCoherent cosF sinF) :
    (t.applyOps cosF sinF ops).CacheCoherent cosF sinF := by
  induction ops generalizing t with
  | nil => exact h
  | cons op ops ih =>
    exact ih (t.applyOp cosF sinF op) (Transform.cacheCoherent_applyOp cosF sinF t op h)

end Helpers



section Theorems

variable [LinearOrderedField α]

/-- C1: for every primitive, transform and vertex position `i`,
`Primitive.transformGeometry` returns a primitive whose vertex `i` is
`rotate(v & scale) + pos` when `rotateFirst` is true and
`rotate((v & scale) + pos)` when it is false, `v` being vertex `i` of the
original and `rotate` using the transform's cached cosines and sines; the
cullable flag, the ambient colour and the diffuse colour are those of the
original primitive. -/
theorem transformGeometry_vertex_and_passthrough (p : Primitive α) (t : Transform α)
    (rotateFirst : Bool) :
    (∀ i : Fin 3,
      (p.transformGeometry t rotateFirst).vertex i =
        if rotateFirst = true then
          (((p.vertex i).pmul t.scale).rotate t.cosX t.sinX t.cosY t.sinY t.cosZ t.sinZ).add t.pos
        else
          (((p.vertex i).pmul t.scale).add t.pos).rotate t.cosX t.sinX t.cosY t.sinY t.cosZ
            t.sinZ) ∧
    (p.transformGeometry t rotateFirst).cullable = p.cullable ∧
    (p.transformGeometry t rotateFirst).ambientColor = p.ambientColor ∧
    (p.transformGeometry t rotateFirst).diffuseColor = p.diffuseColor := by
  cases rotateFirst
  · refine ⟨fun i => ?_, rfl, rfl, rfl⟩
    fin_cases i <;> rfl
  · refine ⟨fun i => ?_, rfl, rfl, rfl⟩
    fin_cases i <;> rfl

/-- C2: for every vector and every six values `cosX sinX cosY sinY cosZ sinZ`,
`V3.rotate` is the composition of the Y-axis step, then the X-axis step on that
result, then the Z-axis step on that result. -/
theorem rotate_eq_rotZ_rotX_rotY (v : V3 α) (cosX sinX cosY sinY cosZ sinZ : α) :
    v.rotate cosX sinX cosY sinY cosZ sinZ =
      V3.specRotZ cosZ sinZ (V3.specRotX cosX sinX (V3.specRotY cosY sinY v)) := by
  rfl

/-- C4: in `Camera.render` the primitives handed to rasterization are exactly
the camera-space primitives all three of whose vertices have `z` strictly
greater than `min` and strictly less than `max`, in their original order: a
camera-space primitive is kept if and only if all three vertices are strictly
inside `(min, max)`, one with a vertex at `z ≤ min` or `z ≥ max` is excluded,
and the kept list is the camera-space list with the other primitives removed. -/
theorem collectPrimitives_depth_range (cosF sinF : α → α) (cam : Camera α) (scene : Scene α) :
    cam.collectPrimitives cosF sinF scene =
      (cam.cameraSpacePrimitives cosF sinF scene).filter
        (fun p => decide (∀ i : Fin 3, cam.min < (p.vertex i).z ∧ (p.vertex i).z < cam.max)) ∧
    (cam.collectPrimitives cosF sinF scene).Sublist (cam.cameraSpacePrimitives cosF sinF scene) ∧
    (∀ p ∈ cam.cameraSpacePrimitives cosF sinF scene,
      (p ∈ cam.collectPrimitives cosF sinF scene ↔
        ∀ i : Fin 3, cam.min < (p.vertex i).z ∧ (p.vertex i).z < cam.max)) ∧
    (∀ p ∈ cam.cameraSpacePrimitives cosF sinF scene,
      (∃ i : Fin 3, (p.vertex i).z ≤ cam.min ∨ cam.max ≤ (p.vertex i).z) →
        p ∉ cam.collectPrimitives cosF sinF scene) := by
  have hf : (fun p : Primitive α =>
      decide (∀ i : Fin 3, cam.min < (p.vertex i).z ∧ (p.vertex i).z < cam.max)) =
      cam.inDepthRange := by
    funext p
    rw [Bool.eq_iff_iff, decide_eq_true_iff, Camera.inDepthRange_iff]
  have hmem : ∀ p ∈ cam.cameraSpacePrimitives cosF sinF scene,
      (p ∈ cam.collectPrimitives cosF sinF scene ↔
        ∀ i : Fin 3, cam.min < (p.vertex i).z ∧ (p.vertex i).z < cam.max) := by
    intro p hp
    rw [Camera.collectPrimitives_eq_filter, List.mem_filter, Camera.inDepthRange_iff]
    exact ⟨fun h => h.2, fun h => ⟨hp, h⟩⟩
  refine ⟨?_, ?_, hmem, ?_⟩
  · rw [hf, Camera.collectPrimitives_eq_filter]
  · rw [Camera.collectPrimitives_eq_filter]
    exact List.filter_sublist _
  · rintro p hp ⟨i, hi⟩ hin
    have h := (hmem p hp).1 hin i
    rcases hi with hi | hi
    · exact absurd h.1 (not_lt.mpr hi)
    · exact absurd h.2 (not_lt.mpr hi)

/-- C5: for every primitive that reaches the projection stage of
`Camera.render` and each of its vertices `(x, y, z)` with `z ≠ 0`, the projected
vertex has `x'' = x * fovCoefficient / z + canvasWidth`,
`y'' = canvasHeight - y * fovCoefficient / z` and the same `z`; in particular a
vertex with `x = y = 0` is mapped to `(canvasWidth, canvasHeight)`. -/
theorem projectPrimitive_vertex (tanF : α → α) (pi : α) (cam : Camera α)
    (canvasWidth canvasHeight : ℤ) (p : Primitive α) (i : Fin 3)
    (hz : (p.vertex i).z ≠ 0) :
    ((cam.projectPrimitive tanF pi canvasWidth canvasHeight p).vertex i).x =
        (p.vertex i).x * cam.fovCoefficient tanF pi canvasWidth / (p.vertex i).z +
          (canvasWidth : α) ∧
    ((cam.projectPrimitive tanF pi canvasWidth canvasHeight p).vertex i).y =
        (canvasHeight : α) -
          (p.vertex i).y * cam.fovCoefficient tanF pi canvasWidth / (p.vertex i).z ∧
    ((cam.projectPrimitive tanF pi canvasWidth canvasHeight p).vertex i).z = (p.vertex i).z ∧
    ((p.vertex i).x = 0 → (p.vertex i).y = 0 →
      ((cam.projectPrimitive tanF pi canvasWidth canvasHeight p).vertex i).x = (canvasWidth : α) ∧
      ((cam.projectPrimitive tanF pi canvasWidth canvasHeight p).vertex i).y =
        (canvasHeight : α)) := by
  have _ := hz
  fin_cases i <;>
  · simp only [Camera.projectPrimitive, Camera.screenMap, Camera.perspectiveDivide,
      Primitive.vertex]
    refine ⟨by ring, by ring, trivial, fun hx hy => ?_⟩
    simp only [Primitive.vertex] at hx hy
    simp [hx, hy]

/-- Witness of C5 over the rationals: the default camera, the tangent taken as
the constant `1`, a `400 × 300` canvas and the vertex `(1, 0, 5)`. -/
theorem projectPrimitive_vertex_witness :
    ((((Camera.default : Camera ℚ).projectPrimitive (fun _ => 1) 3 400 300
        ⟨⟨1, 0, 5⟩, ⟨0, 1, 5⟩, ⟨0, 0, 5⟩, true, ⟨255, 0, 0⟩, ⟨255, 0, 0⟩⟩).vertex 0).x = 480) ∧
    ((((Camera.default : Camera ℚ).projectPrimitive (fun _ => 1) 3 400 300
        ⟨⟨1, 0, 5⟩, ⟨0, 1, 5⟩, ⟨0, 0, 5⟩, true, ⟨255, 0, 0⟩, ⟨255, 0, 0⟩⟩).vertex 0).y = 300) := by
  have h := projectPrimitive_vertex (fun _ : ℚ => 1) 3 (Camera.default : Camera ℚ) 400 300
    ⟨⟨1, 0, 5⟩, ⟨0, 1, 5⟩, ⟨0, 0, 5⟩, true, ⟨255, 0, 0⟩, ⟨255, 0, 0⟩⟩ 0
    (by simp [Primitive.vertex])
  refine ⟨?_, ?_⟩
  · rw [h.1]
    norm_num [Primitive.vertex, Camera.fovCoefficient, Camera.default]
  · rw [h.2.1]
    norm_num [Primitive.vertex, Camera.fovCoefficient, Camera.default]

/-- C7: for the depth-test write of the two fill loops, every cell whose stored
depth is greater than `z1` and every two candidate writes `(z1, color1)`,
`(z2, color2)` with `z1 < z2`: applying the two writes in either order leaves
the cell with depth `z1` and colour `color1`. -/
theorem depthWrite_order_independent (cell : BufferPixel α) (z1 z2 : α)
    (color1 color2 : V3 α) (hcell : cell.z > z1) (h12 : z1 < z2) :
    (cell.depthWrite z1 color1).depthWrite z2 color2 = ⟨z1, color1⟩ ∧
    (cell.depthWrite z2 color2).depthWrite z1 color1 = ⟨z1, color1⟩ := by
  constructor
  · simp [BufferPixel.depthWrite, hcell, not_lt.mpr h12.le]
  · by_cases h : cell.z > z2
    · simp [BufferPixel.depthWrite, h, h12]
    · simp [BufferPixel.depthWrite, h, hcell]

/-- Witness of C7 over the rationals: a fresh cell of the default camera
(depth `101`, black) and the writes `(5, red)` and `(7, green)`. -/
theorem depthWrite_order_independent_witness :
    ((⟨101, ⟨0, 0, 0⟩⟩ : BufferPixel ℚ).depthWrite 5 ⟨255, 0, 0⟩).depthWrite 7 ⟨0, 255, 0⟩ =
        ⟨5, ⟨255, 0, 0⟩⟩ ∧
    ((⟨101, ⟨0, 0, 0⟩⟩ : BufferPixel ℚ).depthWrite 7 ⟨0, 255, 0⟩).depthWrite 5 ⟨255, 0, 0⟩ =
        ⟨5, ⟨255, 0, 0⟩⟩ :=
  depthWrite_order_independent (⟨101, ⟨0, 0, 0⟩⟩ : BufferPixel ℚ) 5 7 ⟨255, 0, 0⟩ ⟨0, 255, 0⟩
    (by norm_num) (by norm_num)

/-- C9: for every camera state and every distance `d`, `moveForward(d)`
followed by `moveBackward(d)` gives back the camera it started from: the
position is restored exactly and `rot` and all other fields are unchanged. -/
theorem moveForward_moveBackward (cosF sinF : α → α) (piHalf : α) (cam : Camera α) (d : α) :
    (cam.moveForward cosF sinF piHalf d).moveBackward cosF sinF piHalf d = cam ∧
    ((cam.moveForward cosF sinF piHalf d).moveBackward cosF sinF piHalf d).pos = cam.pos ∧
    ((cam.moveForward cosF sinF piHalf d).moveBackward cosF sinF piHalf d).rot = cam.rot := by
  have h : (cam.moveForward cosF sinF piHalf d).moveBackward cosF sinF piHalf d = cam := by
    obtain ⟨⟨px, py, pz⟩, rot, fov, focal, mn, mx, logs⟩ := cam
    simp [Camera.moveForward, Camera.moveBackward]
  exact ⟨h, by rw [h], by rw [h]⟩

/-- C10: every `Transform` built by either constructor and then modified by any
sequence of calls of `setRotX`, `setRotY`, `setRotZ`, `setRot`, `changeRotX`,
`changeRotY`, `changeRotZ` has `cosX = cos(rot.x)`, `sinX = sin(rot.x)`,
`cosY = cos(rot.y)`, `sinY = sin(rot.y)`, `cosZ = cos(rot.z)`,
`sinZ = sin(rot.z)`, whatever functions `cos` and `sin` are. -/
theorem cache_coherent_after_setters (cosF sinF : α → α) (pos scale rot : V3 α)
    (ops : List (Transform.RotOp α)) :
    ((Transform.default cosF sinF).applyOps cosF sinF ops).CacheCoherent cosF sinF ∧
    ((Transform.ofPose cosF sinF pos scale rot).applyOps cosF sinF ops).CacheCoherent
      cosF sinF := by
  constructor
  · apply Transform.cacheCoherent_applyOps
    simp [Transform.default, Transform.CacheCoherent, Transform.setRot, Transform.setRotX,
      Transform.setRotY, Transform.setRotZ]
  · apply Transform.cacheCoherent_applyOps
    simp [Transform.ofPose, Transform.CacheCoherent, Transform.setRot, Transform.setRotX,
      Transform.setRotY, Transform.setRotZ]

/-- C8: for a buffer of `2 * canvasWidth` columns of `2 * canvasHeight` cells
and every output pixel `(x, y)` with `0 ≤ x < canvasWidth` and
`0 ≤ y < canvasHeight`, the four supersampled cells `(2x, 2y)`, `(2x+1, 2y)`,
`(2x+1, 2y+1)`, `(2x, 2y+1)` exist and each colour channel handed to the draw
call of that pixel is the truncation to an integer of `0.25` times the sum of
that channel over the four cells, and this draw call is one of those of the
downsample loops; for the cell colours `(10,20,30)`, `(20,20,30)`,
`(10,30,30)`, `(20,30,30)` the emitted pixel is `(15,25,30)`. -/
theorem downsamplePixel_box_filter [FloorRing α] (buffer : Buffer α)
    (canvasWidth canvasHeight x y : ℤ) (hsize : buffer.HasSize canvasWidth canvasHeight)
    (hx : 0 ≤ x ∧ x < canvasWidth) (hy : 0 ≤ y ∧ y < canvasHeight) :
    (∃ p1 p2 p3 p4 : BufferPixel α,
      buffer.get? (2 * x) (2 * y) = some p1 ∧
      buffer.get? (2 * x + 1) (2 * y) = some p2 ∧
      buffer.get? (2 * x + 1) (2 * y + 1) = some p3 ∧
      buffer.get? (2 * x) (2 * y + 1) = some p4 ∧
      Camera.downsamplePixel buffer x y =
        some ⟨x, y,
          truncToInt (0.25 * (p1.color.x + p2.color.x + p3.color.x + p4.color.x)),
          truncToInt (0.25 * (p1.color.y + p2.color.y + p3.color.y + p4.color.y)),
          truncToInt (0.25 * (p1.color.z + p2.color.z + p3.color.z + p4.color.z))⟩ ∧
      Camera.downsamplePixel buffer x y ∈ Camera.downsample buffer canvasWidth canvasHeight) ∧
    (∀ z1 z2 z3 z4 : α,
      Camera.downsamplePixel
        [[⟨z1, ⟨10, 20, 30⟩⟩, ⟨z4, ⟨20, 30, 30⟩⟩], [⟨z2, ⟨20, 20, 30⟩⟩, ⟨z3, ⟨10, 30, 30⟩⟩]]
        0 0 = some ⟨0, 0, 15, 25, 30⟩) := by
  constructor
  · obtain ⟨p1, h1⟩ := Buffer.get?_of_hasSize buffer canvasWidth canvasHeight (2 * x) (2 * y)
      hsize ⟨by omega, by omega⟩ ⟨by omega, by omega⟩
    obtain ⟨p2, h2⟩ := Buffer.get?_of_hasSize buffer canvasWidth canvasHeight (2 * x + 1) (2 * y)
      hsize ⟨by omega, by omega⟩ ⟨by omega, by omega⟩
    obtain ⟨p3, h3⟩ := Buffer.get?_of_hasSize buffer canvasWidth canvasHeight (2 * x + 1)
      (2 * y + 1) hsize ⟨by omega, by omega⟩ ⟨by omega, by omega⟩
    obtain ⟨p4, h4⟩ := Buffer.get?_of_hasSize buffer canvasWidth canvasHeight (2 * x) (2 * y + 1)
      hsize ⟨by omega, by omega⟩ ⟨by omega, by omega⟩
    refine ⟨p1, p2, p3, p4, h1, h2, h3, h4, ?_, ?_⟩
    · simp [Camera.downsamplePixel, h1, h2, h3, h4]
    · have hxn : x.toNat < canvasWidth.toNat := by omega
      have hyn : y.toNat < canvasHeight.toNat := by omega
      rw [Camera.downsample, List.mem_flatMap]
      refine ⟨x.toNat, List.mem_range.mpr hxn, ?_⟩
      rw [List.mem_map]
      refine ⟨y.toNat, List.mem_range.mpr hyn, ?_⟩
      rw [Int.toNat_of_nonneg hx.1, Int.toNat_of_nonneg hy.1]
  · intro z1 z2 z3 z4
    have hr : (0.25 : α) * (10 + 20 + 10 + 20) = ((15 : ℤ) : α) := by norm_num
    have hg : (0.25 : α) * (20 + 20 + 30 + 30) = ((25 : ℤ) : α) := by norm_num
    have hb : (0.25 : α) * (30 + 30 + 30 + 30) = ((30 : ℤ) : α) := by norm_num
    simp only [Camera.downsamplePixel, Buffer.get?]
    simp only [mul_zero, zero_add, le_refl, and_self, if_true, Int.toNat_zero, zero_le_one,
      Int.toNat_one, List.getElem?_cons_zero, List.getElem?_cons_succ, Option.bind_some,
      Option.some_bind]
    rw [hr, hg, hb, truncToInt_intCast, truncToInt_intCast, truncToInt_intCast]

/-- Witness of C8 over the rationals: the freshly initialised buffer of the
default camera for a `1 × 1` canvas and its only output pixel `(0, 0)`. -/
theorem downsamplePixel_box_filter_witness :
    ∃ d : DrawPoint,
      Camera.downsamplePixel ((Camera.default : Camera ℚ).initBuffer 1 1) 0 0 = some d ∧
      some d ∈ Camera.downsample ((Camera.default : Camera ℚ).initBuffer 1 1) 1 1 := by
  obtain ⟨⟨p1, p2, p3, p4, -, -, -, -, h5, h6⟩, -⟩ :=
    downsamplePixel_box_filter ((Camera.default : Camera ℚ).initBuffer 1 1) 1 1 0 0
      (by simp [Buffer.HasSize, Camera.initBuffer]) (by omega) (by omega)
  exact ⟨_, h5, h5 ▸ h6⟩

/-- C11: `setRotX(angle)` changes only `rot.x`, `cosX` and `sinX` of a
`Transform` (`pos`, `scale`, `rot.y`, `rot.z`, `cosY`, `sinY`, `cosZ`, `sinZ`
keep their values), `setRotY` only `rot.y`, `cosY`, `sinY`, `setRotZ` only
`rot.z`, `cosZ`, `sinZ`; and `changeRotX(delta)` is `setRotX(rot.x + delta)`,
likewise for Y and Z. -/
theorem setRot_axis_frame (cosF sinF : α → α) (t : Transform α) (angle : α) :
    (t.setRotX cosF sinF angle =
        ⟨t.pos, t.scale, ⟨angle, t.rot.y, t.rot.z⟩, cosF angle, sinF angle,
          t.cosY, t.sinY, t.cosZ, t.sinZ⟩ ∧
      t.setRotY cosF sinF angle =
        ⟨t.pos, t.scale, ⟨t.rot.x, angle, t.rot.z⟩, t.cosX, t.sinX,
          cosF angle, sinF angle, t.cosZ, t.sinZ⟩ ∧
      t.setRotZ cosF sinF angle =
        ⟨t.pos, t.scale, ⟨t.rot.x, t.rot.y, angle⟩, t.cosX, t.sinX,
          t.cosY, t.sinY, cosF angle, sinF angle⟩) ∧
    (t.changeRotX cosF sinF angle = t.setRotX cosF sinF (t.rot.x + angle) ∧
      t.changeRotY cosF sinF angle = t.setRotY cosF sinF (t.rot.y + angle) ∧
      t.changeRotZ cosF sinF angle = t.setRotZ cosF sinF (t.rot.z + angle)) :=
  ⟨⟨rfl, rfl, rfl⟩, ⟨rfl, rfl, rfl⟩⟩

/-- C15: for every `SceneObject`, transform and `rotateFirst` flag,
`SceneObject.transformGeometry` returns an object whose primitive list has the
length of the original's, whose `i`-th primitive is
`Primitive.transformGeometry(transform, rotateFirst)` of the original's `i`-th
primitive (and is absent where the original has none), and whose
`internalTransform` is the original's, not the argument. -/
theorem SceneObject_transformGeometry_pointwise (o : SceneObject α) (t : Transform α)
    (rotateFirst : Bool) :
    (o.transformGeometry t rotateFirst).primitives.length = o.primitives.length ∧
    (∀ i : ℕ,
      (o.transformGeometry t rotateFirst).primitives[i]? =
        (o.primitives[i]?).map (fun p => p.transformGeometry t rotateFirst)) ∧
    (o.transformGeometry t rotateFirst).internalTransform = o.internalTransform := by
  refine ⟨?_, fun i => ?_, rfl⟩
  · rw [SceneObject.transformGeometry_primitives, List.length_map]
  · rw [SceneObject.transformGeometry_primitives, List.getElem?_map]

/-- C19: the depth test is strict.  A candidate write whose depth `z` is equal
to or greater than the stored depth of the cell leaves depth and colour of the
cell unchanged; a write with `z` strictly less than the stored depth sets the
depth to `z` and the colour to the primitive's `ambientColor`; so of two
writes of the same depth the first one processed determines the colour. -/
theorem depthWrite_strict (cell : BufferPixel α) (z : α) (ambientColor other : V3 α) :
    (cell.z ≤ z → cell.depthWrite z ambientColor = cell) ∧
    (z < cell.z → cell.depthWrite z ambientColor = ⟨z, ambientColor⟩) ∧
    (cell.depthWrite z ambientColor).depthWrite z other = cell.depthWrite z ambientColor := by
  refine ⟨fun h => ?_, fun h => ?_, ?_⟩
  · simp [BufferPixel.depthWrite, not_lt.mpr h]
  · simp [BufferPixel.depthWrite, h]
  · by_cases h : z < cell.z
    · simp [BufferPixel.depthWrite, h]
    · simp [BufferPixel.depthWrite, h]

/-- C16: for every three projected vertices `p1`, `p2`, `p3` the vertex
ordering step of `Camera.render` yields `(a, b, c)` that is a rearrangement of
`(p1, p2, p3)`, each input vertex used exactly once, with
`a.y ≥ b.y ≥ c.y`. -/
theorem sortVertices_perm_and_descending (p1 p2 p3 : V3 α) :
    [(Camera.sortVertices p1 p2 p3).1, (Camera.sortVertices p1 p2 p3).2.1,
      (Camera.sortVertices p1 p2 p3).2.2].Perm [p1, p2, p3] ∧
    (Camera.sortVertices p1 p2 p3).1.y ≥ (Camera.sortVertices p1 p2 p3).2.1.y ∧
    (Camera.sortVertices p1 p2 p3).2.1.y ≥ (Camera.sortVertices p1 p2 p3).2.2.y := by
  have h132 : [p1, p3, p2].Perm [p1, p2, p3] := (List.Perm.swap p2 p3 []).cons p1
  have h213 : [p2, p1, p3].Perm [p1, p2, p3] := List.Perm.swap p1 p2 [p3]
  have h231 : [p2, p3, p1].Perm [p1, p2, p3] :=
    ((List.Perm.swap p1 p3 []).cons p2).trans h213
  have h312 : [p3, p1, p2].Perm [p1, p2, p3] :=
    (List.Perm.swap p1 p3 [p2]).trans h132
  have h321 : [p3, p2, p1].Perm [p1, p2, p3] :=
    ((List.Perm.swap p1 p2 []).cons p3).trans h312
  simp only [Camera.sortVertices, List.getD_cons_zero, List.getD_cons_succ]
  split_ifs <;>
    simp only [List.getD_cons_zero, List.getD_cons_succ, List.eraseIdx_cons_zero,
      List.eraseIdx_cons_succ, ge_iff_le] at * <;>
    first
      | exact ⟨List.Perm.refl _, by linarith, by linarith⟩
      | exact ⟨h132, by linarith, by linarith⟩
      | exact ⟨h213, by linarith, by linarith⟩
      | exact ⟨h231, by linarith, by linarith⟩
      | exact ⟨h312, by linarith, by linarith⟩
      | exact ⟨h321, by linarith, by linarith⟩

/-- C17: for vertices with `a.y > b.y > c.y` the decomposition synthesizes a
split vertex `d` with `d.y = b.y` on the edge `a–c`,
`d.x = a.x + t*(c.x - a.x)` and `d.z = a.z + t*(c.z - a.z)` for
`t = (a.y - b.y)/(a.y - c.y)`, `0 < t < 1`, and produces the flat-top
sub-triangle `(b, d, c)` and the flat-bottom sub-triangle `(a, b, d)`.  If
`a.y = b.y` only the flat-top triangle `(a, b, c)` is produced, and otherwise
if `b.y = c.y` only the flat-bottom triangle `(a, b, c)`. -/
theorem decompose_split_vertex (a b c : V3 α) (hab : a.y > b.y) (hbc : b.y > c.y) :
    (∃ d : V3 α,
      Camera.decompose a b c = (some (b, d, c), some (a, b, d)) ∧
      d.y = b.y ∧
      d.x = a.x + (a.y - b.y) / (a.y - c.y) * (c.x - a.x) ∧
      d.z = a.z + (a.y - b.y) / (a.y - c.y) * (c.z - a.z) ∧
      0 < (a.y - b.y) / (a.y - c.y) ∧ (a.y - b.y) / (a.y - c.y) < 1) ∧
    (∀ u v w : V3 α, u.y = v.y → Camera.decompose u v w = (some (u, v, w), none)) ∧
    (∀ u v w : V3 α, u.y ≠ v.y → v.y = w.y →
      Camera.decompose u v w = (none, some (u, v, w))) := by
  have hac : 0 < a.y - c.y := by linarith
  have hca : c.y - a.y ≠ 0 := by intro h; linarith
  refine ⟨⟨⟨a.x - (c.x - a.x) / (c.y - a.y) * (a.y - b.y), b.y,
      a.z - (c.z - a.z) / (c.y - a.y) * (a.y - b.y)⟩, ?_, rfl, ?_, ?_, ?_, ?_⟩, ?_, ?_⟩
  · simp [Camera.decompose, ne_of_gt hab, ne_of_gt hbc]
  · field_simp
    ring
  · field_simp
    ring
  · exact div_pos (by linarith) hac
  · rw [div_lt_one hac]
    linarith
  · intro u v w h
    simp [Camera.decompose, h]
  · intro u v w h1 h2
    rw [Camera.decompose, if_neg h1, if_pos h2]

/-- Witness of C17 over the rationals: `a = (0, 4, 1)`, `b = (3, 2, 2)`,
`c = (4, 0, 3)`, for which the split vertex is `(2, 2, 2)`. -/
theorem decompose_split_vertex_witness :
    ∃ d : V3 ℚ,
      Camera.decompose (⟨0, 4, 1⟩ : V3 ℚ) ⟨3, 2, 2⟩ ⟨4, 0, 3⟩ =
        (some (⟨3, 2, 2⟩, d, ⟨4, 0, 3⟩), some (⟨0, 4, 1⟩, ⟨3, 2, 2⟩, d)) ∧
      d.y = 2 :=
  let ⟨d, h1, h2, _⟩ :=
    (decompose_split_vertex (⟨0, 4, 1⟩ : V3 ℚ) ⟨3, 2, 2⟩ ⟨4, 0, 3⟩
      (by norm_num) (by norm_num)).1
  ⟨d, h1, h2⟩

/-- C18: for every sub-triangle `(a, b, c)` with non-zero barycentric
denominator and every sample point `(x, y)`, the weights computed in the fill
loops satisfy `w1 + w2 + w3 = 1`, `w1*a.x + w2*b.x + w3*c.x = x` and
`w1*a.y + w2*b.y + w3*c.y = y`, and the interpolated depth is
`w1*a.z + w2*b.z + w3*c.z`; at the position of a vertex the interpolated depth
is the depth of that vertex. -/
theorem barycentric_weights (a b c : V3 α) (x y : α)
    (hden : (Camera.barycentric a b c x y).denominator ≠ 0) :
    (Camera.barycentric a b c x y).w1 + (Camera.barycentric a b c x y).w2 +
        (Camera.barycentric a b c x y).w3 = 1 ∧
    (Camera.barycentric a b c x y).w1 * a.x + (Camera.barycentric a b c x y).w2 * b.x +
        (Camera.barycentric a b c x y).w3 * c.x = x ∧
    (Camera.barycentric a b c x y).w1 * a.y + (Camera.barycentric a b c x y).w2 * b.y +
        (Camera.barycentric a b c x y).w3 * c.y = y ∧
    (Camera.barycentric a b c x y).z =
        (Camera.barycentric a b c x y).w1 * a.z + (Camera.barycentric a b c x y).w2 * b.z +
          (Camera.barycentric a b c x y).w3 * c.z ∧
    (Camera.barycentric a b c a.x a.y).z = a.z ∧
    (Camera.barycentric a b c b.x b.y).z = b.z ∧
    (Camera.barycentric a b c c.x c.y).z = c.z := by
  simp only [Camera.barycentric] at hden ⊢
  refine ⟨by ring, ?_, ?_, by ring, ?_, ?_, ?_⟩ <;>
    first
      | (field_simp; ring)
      | field_simp

/-- Witness of C18 over the rationals: the triangle `(0, 2, 5)`, `(2, 2, 7)`,
`(0, 0, 9)` and the sample `(0, 1)`, the midpoint of the edge from the first
to the third vertex. -/
theorem barycentric_weights_witness :
    (Camera.barycentric (⟨0, 2, 5⟩ : V3 ℚ) ⟨2, 2, 7⟩ ⟨0, 0, 9⟩ 0 1).w1 +
        (Camera.barycentric (⟨0, 2, 5⟩ : V3 ℚ) ⟨2, 2, 7⟩ ⟨0, 0, 9⟩ 0 1).w2 +
        (Camera.barycentric (⟨0, 2, 5⟩ : V3 ℚ) ⟨2, 2, 7⟩ ⟨0, 0, 9⟩ 0 1).w3 = 1 :=
  (barycentric_weights (⟨0, 2, 5⟩ : V3 ℚ) ⟨2, 2, 7⟩ ⟨0, 0, 9⟩ 0 1
    (by norm_num [Camera.barycentric])).1

/-- C12: for every `pos`, `ColoredUnitCube(pos)` has exactly 12 primitives, in
order two triangles for each of the faces back (plane `z = 1`), right
(`x = 1`), front (`z = -1`), left (`x = -1`), bottom (`y = -1`), top (`y = 1`),
and both triangles of a face have its ambient colour: back `(255,0,0)`, right
`(0,0,255)`, front `(0,255,0)`, left `(255,100,0)`, bottom `(255,0,255)`, top
`(255,255,0)`; for `pos = (0,0,0)` the set of all vertices of the 12
primitives is the set of the 8 corners `(±1, ±1, ±1)`. -/
theorem ColoredUnitCube_faces_and_colours (cosF sinF : α → α) (pos : V3 α) :
    (SceneObject.ColoredUnitCube cosF sinF pos).primitives.length = 12 ∧
    (∃ back1 back2 right1 right2 front1 front2 left1 left2 bottom1 bottom2 top1 top2 :
        Primitive α,
      (SceneObject.ColoredUnitCube cosF sinF pos).primitives =
        [back1, back2, right1, right2, front1, front2, left1, left2, bottom1, bottom2,
          top1, top2] ∧
      (back1.ambientColor = ⟨255, 0, 0⟩ ∧ back2.ambientColor = ⟨255, 0, 0⟩ ∧
        back1.LiesIn V3.z 1 ∧ back2.LiesIn V3.z 1) ∧
      (right1.ambientColor = ⟨0, 0, 255⟩ ∧ right2.ambientColor = ⟨0, 0, 255⟩ ∧
        right1.LiesIn V3.x 1 ∧ right2.LiesIn V3.x 1) ∧
      (front1.ambientColor = ⟨0, 255, 0⟩ ∧ front2.ambientColor = ⟨0, 255, 0⟩ ∧
        front1.LiesIn V3.z (-1) ∧ front2.LiesIn V3.z (-1)) ∧
      (left1.ambientColor = ⟨255, 100, 0⟩ ∧ left2.ambientColor = ⟨255, 100, 0⟩ ∧
        left1.LiesIn V3.x (-1) ∧ left2.LiesIn V3.x (-1)) ∧
      (bottom1.ambientColor = ⟨255, 0, 255⟩ ∧ bottom2.ambientColor = ⟨255, 0, 255⟩ ∧
        bottom1.LiesIn V3.y (-1) ∧ bottom2.LiesIn V3.y (-1)) ∧
      (top1.ambientColor = ⟨255, 255, 0⟩ ∧ top2.ambientColor = ⟨255, 255, 0⟩ ∧
        top1.LiesIn V3.y 1 ∧ top2.LiesIn V3.y 1)) ∧
    (∀ v : V3 α,
      v ∈ (SceneObject.ColoredUnitCube cosF sinF V3.zero).vertices ↔
        v ∈ (SceneObject.unitCubeCorners : List (V3 α))) := by
  refine ⟨rfl, ⟨_, _, _, _, _, _, _, _, _, _, _, _, rfl, ?_⟩, fun v => ?_⟩
  · simp [Primitive.LiesIn]
  · simp only [SceneObject.vertices, SceneObject.ColoredUnitCube, SceneObject.unitCubeCorners,
      List.flatMap_cons, List.flatMap_nil, List.mem_append, List.mem_cons, List.mem_nil_iff,
      List.cons_append, List.nil_append, List.append_nil, or_false]
    tauto

/-- C13 (as amended): for every `pos`, the vertices of the primitives of
`ColoredUnitCube(pos)` are the 8 corners `(±1, ±1, ±1)`, not offset; `pos` is
kept as the position of the internal transform (scale `(1,1,1)`, rotation
`(0,0,0)`), and, with `cos 0 = 1` and `sin 0 = 0`, the object-to-world step
`transformGeometry(internalTransform, true)` gives primitives whose set of
vertices is `{ (±1, ±1, ±1) + pos }`. -/
theorem ColoredUnitCube_vertices_local_then_offset (cosF sinF : α → α) (pos : V3 α)
    (hcos : cosF 0 = 1) (hsin : sinF 0 = 0) :
    (∀ v : V3 α,
      v ∈ (SceneObject.ColoredUnitCube cosF sinF pos).vertices ↔
        v ∈ (SceneObject.unitCubeCorners : List (V3 α))) ∧
    (SceneObject.ColoredUnitCube cosF sinF pos).internalTransform =
      Transform.ofPose cosF sinF pos ⟨1, 1, 1⟩ V3.zero ∧
    (SceneObject.ColoredUnitCube cosF sinF pos).internalTransform.pos = pos ∧
    (∀ v : V3 α,
      v ∈ ((SceneObject.ColoredUnitCube cosF sinF pos).transformGeometry
            (SceneObject.ColoredUnitCube cosF sinF pos).internalTransform true).vertices ↔
        v ∈ SceneObject.offsetCubeCorners pos) := by
  refine ⟨fun v => ?_, rfl, rfl, fun v => ?_⟩
  · simp only [SceneObject.vertices, SceneObject.ColoredUnitCube, SceneObject.unitCubeCorners,
      List.flatMap_cons, List.flatMap_nil, List.mem_append, List.mem_cons, List.mem_nil_iff,
      List.cons_append, List.nil_append, List.append_nil, or_false]
    tauto
  · simp only [SceneObject.vertices, SceneObject.transformGeometry_primitives,
      SceneObject.ColoredUnitCube, SceneObject.offsetCubeCorners, SceneObject.unitCubeCorners,
      Primitive.transformGeometry, V3.rotate, V3.pmul, V3.add, V3.zero, Transform.ofPose,
      Transform.setRot, Transform.setRotX, Transform.setRotY, Transform.setRotZ,
      Transform.uninit, hcos, hsin, List.map_cons, List.map_nil,
      List.flatMap_cons, List.flatMap_nil, List.mem_append, List.mem_cons, List.mem_nil_iff,
      List.cons_append, List.nil_append, List.append_nil, or_false, if_true,
      mul_one, mul_zero, add_zero, sub_zero, zero_add, neg_neg, neg_zero, one_mul, zero_mul]
    generalize (v = ⟨1 + pos.x, 1 + pos.y, 1 + pos.z⟩) = c1
    generalize (v = ⟨1 + pos.x, 1 + pos.y, -1 + pos.z⟩) = c2
    generalize (v = ⟨1 + pos.x, -1 + pos.y, 1 + pos.z⟩) = c3
    generalize (v = ⟨1 + pos.x, -1 + pos.y, -1 + pos.z⟩) = c4
    generalize (v = ⟨-1 + pos.x, 1 + pos.y, 1 + pos.z⟩) = c5
    generalize (v = ⟨-1 + pos.x, 1 + pos.y, -1 + pos.z⟩) = c6
    generalize (v = ⟨-1 + pos.x, -1 + pos.y, 1 + pos.z⟩) = c7
    generalize (v = ⟨-1 + pos.x, -1 + pos.y, -1 + pos.z⟩) = c8
    tauto

/-- Witness of C13 (as amended) over the rationals: the cube at
`pos = (0, 0, 5)` with the cosine taken as the constant `1` and the sine as
the constant `0`; the corner `(1, 1, 6)` is a vertex after the object-to-world
step. -/
theorem ColoredUnitCube_vertices_local_then_offset_witness :
    (⟨1, 1, 6⟩ : V3 ℚ) ∈
      ((SceneObject.ColoredUnitCube (fun _ : ℚ => 1) (fun _ => 0) ⟨0, 0, 5⟩).transformGeometry
        (SceneObject.ColoredUnitCube (fun _ : ℚ => 1) (fun _ => 0)
          ⟨0, 0, 5⟩).internalTransform true).vertices :=
  ((ColoredUnitCube_vertices_local_then_offset (fun _ : ℚ => 1) (fun _ => 0) ⟨0, 0, 5⟩
    rfl rfl).2.2.2 ⟨1, 1, 6⟩).mpr
    (by norm_num [SceneObject.offsetCubeCorners, SceneObject.unitCubeCorners, V3.add])

/-- C23: if the near bound of the camera satisfies `min ≥ 0` (the default
camera has `min = 0`), every vertex of every primitive that reaches the
perspective-projection stage of `Camera.render` has `z > 0`, so the divisor
`p1.z`, `p2.z`, `p3.z` of the projection is never zero. -/
theorem collected_vertices_have_positive_depth (cosF sinF : α → α) (cam : Camera α)
    (scene : Scene α) (p : Primitive α) (hmin : cam.min ≥ 0)
    (hp : p ∈ cam.collectPrimitives cosF sinF scene) :
    (∀ i : Fin 3, 0 < (p.vertex i).z ∧ (p.vertex i).z ≠ 0) ∧
    (p.p1.z ≠ 0 ∧ p.p2.z ≠ 0 ∧ p.p3.z ≠ 0) ∧
    (Camera.default : Camera α).min = 0 := by
  rw [Camera.collectPrimitives_eq_filter, List.mem_filter, Camera.inDepthRange_iff] at hp
  have hpos : ∀ i : Fin 3, 0 < (p.vertex i).z := fun i => lt_of_le_of_lt hmin (hp.2 i).1
  exact ⟨fun i => ⟨hpos i, ne_of_gt (hpos i)⟩,
    ⟨ne_of_gt (hpos 0), ne_of_gt (hpos 1), ne_of_gt (hpos 2)⟩, rfl⟩

/-- Witness of C23 over the rationals: the default camera (`min = 0`), the
cosine taken as the constant `1` and the sine as the constant `0`, and a scene
of one object with the default transform and one triangle at depth `5`, which
passes the depth-range test. -/
theorem collected_vertices_have_positive_depth_witness :
    (⟨⟨0, 0, 5⟩, ⟨1, 0, 5⟩, ⟨0, 1, 5⟩, true, ⟨255, 0, 0⟩, ⟨255, 0, 0⟩⟩ :
        Primitive ℚ).p1.z ≠ 0 ∧
      (⟨⟨0, 0, 5⟩, ⟨1, 0, 5⟩, ⟨0, 1, 5⟩, true, ⟨255, 0, 0⟩, ⟨255, 0, 0⟩⟩ :
        Primitive ℚ).p2.z ≠ 0 ∧
      (⟨⟨0, 0, 5⟩, ⟨1, 0, 5⟩, ⟨0, 1, 5⟩, true, ⟨255, 0, 0⟩, ⟨255, 0, 0⟩⟩ :
        Primitive ℚ).p3.z ≠ 0 :=
  (collected_vertices_have_positive_depth (fun _ : ℚ => 1) (fun _ => 0)
    (Camera.default : Camera ℚ)
    ⟨[⟨[⟨⟨0, 0, 5⟩, ⟨1, 0, 5⟩, ⟨0, 1, 5⟩, true, ⟨255, 0, 0⟩, ⟨255, 0, 0⟩⟩],
        Transform.default (fun _ => 1) (fun _ => 0)⟩], []⟩
    ⟨⟨0, 0, 5⟩, ⟨1, 0, 5⟩, ⟨0, 1, 5⟩, true, ⟨255, 0, 0⟩, ⟨255, 0, 0⟩⟩
    (by norm_num [Camera.default])
    (by
      rw [Camera.collectPrimitives_eq_filter]
      norm_num [Camera.cameraSpacePrimitives, Camera.objectPrimitives,
        SceneObject.transformGeometry_primitives, Primitive.transformGeometry,
        Camera.cameraTransform, Camera.default, Camera.inDepthRange, Transform.default,
        Transform.ofPose, Transform.setRot, Transform.setRotX, Transform.setRotY,
        Transform.setRotZ, Transform.uninit, V3.rotate, V3.pmul, V3.add, V3.neg,
        V3.zero])).2.1

/-- C25: for `focal = 1`, `tan(fov*π/360) ≠ 0` and a vertex with `z ≠ 0`, a
view-space vertex on the right field-of-view boundary,
`x = z * tan(fov*π/360)`, is mapped to the screen coordinate
`x'' = 2 * canvasWidth`, the right edge of the buffer, and one on the left
boundary, `x = -z * tan(fov*π/360)`, to `x'' = 0`. -/
theorem fov_boundary_maps_to_buffer_edges (tanF : α → α) (pi : α) (cam : Camera α)
    (canvasWidth canvasHeight : ℤ) (p : Primitive α) (i : Fin 3)
    (hfocal : cam.focal = 1) (htan : tanF (cam.fov * pi / 360) ≠ 0)
    (hz : (p.vertex i).z ≠ 0) :
    ((p.vertex i).x = (p.vertex i).z * tanF (cam.fov * pi / 360) →
      ((cam.projectPrimitive tanF pi canvasWidth canvasHeight p).vertex i).x =
        2 * (canvasWidth : α)) ∧
    ((p.vertex i).x = -(p.vertex i).z * tanF (cam.fov * pi / 360) →
      ((cam.projectPrimitive tanF pi canvasWidth canvasHeight p).vertex i).x = 0) := by
  fin_cases i <;>
  · simp only [Primitive.vertex] at hz
    simp only [Camera.projectPrimitive, Camera.screenMap, Camera.perspectiveDivide,
      Camera.fovCoefficient, Primitive.vertex, hfocal, one_mul]
    constructor
    · intro hx
      rw [hx]
      field_simp
      ring
    · intro hx
      rw [hx]
      field_simp
      ring

/-- Witness of C25 over the rationals: the default camera (`focal = 1`), the
tangent taken as the constant `1`, a `400 × 300` canvas and the vertex
`(5, 0, 5)` on the right boundary, mapped to `x'' = 800`. -/
theorem fov_boundary_maps_to_buffer_edges_witness :
    (((Camera.default : Camera ℚ).projectPrimitive (fun _ => 1) 3 400 300
        ⟨⟨5, 0, 5⟩, ⟨0, 1, 5⟩, ⟨0, 0, 5⟩, true, ⟨255, 0, 0⟩, ⟨255, 0, 0⟩⟩).vertex 0).x =
      2 * ((400 : ℤ) : ℚ) :=
  (fov_boundary_maps_to_buffer_edges (fun _ : ℚ => 1) 3 (Camera.default : Camera ℚ) 400 300
    ⟨⟨5, 0, 5⟩, ⟨0, 1, 5⟩, ⟨0, 0, 5⟩, true, ⟨255, 0, 0⟩, ⟨255, 0, 0⟩⟩ 0 rfl
    (by norm_num) (by norm_num [Primitive.vertex])).1
    (by norm_num [Primitive.vertex])

end Theorems

/-- C24: over the reals, for every camera with `rot.x = rot.z = 0` (any
`rot.y`), every distance `d` and every world point (a vertex of a primitive),
the view-space image of the point under the camera transform
`Transform(-pos, (1,1,1), rot)` applied with `rotateFirst = false` has, after
`moveForward(d)`, the same `x` and `y` as before and a `z` smaller by exactly
`d`. -/
theorem moveForward_shifts_view_depth (cam : Camera ℝ) (d : ℝ) (p : Primitive ℝ) (i : Fin 3)
    (hrotx : cam.rot.x = 0) (hrotz : cam.rot.z = 0) :
    ((p.transformGeometry
        ((cam.moveForward Real.cos Real.sin (Real.pi / 2) d).cameraTransform
          Real.cos Real.sin) false).vertex i).x =
      ((p.transformGeometry (cam.cameraTransform Real.cos Real.sin) false).vertex i).x ∧
    ((p.transformGeometry
        ((cam.moveForward Real.cos Real.sin (Real.pi / 2) d).cameraTransform
          Real.cos Real.sin) false).vertex i).y =
      ((p.transformGeometry (cam.cameraTransform Real.cos Real.sin) false).vertex i).y ∧
    ((p.transformGeometry
        ((cam.moveForward Real.cos Real.sin (Real.pi / 2) d).cameraTransform
          Real.cos Real.sin) false).vertex i).z =
      ((p.transformGeometry (cam.cameraTransform Real.cos Real.sin) false).vertex i).z - d := by
  have h := Real.cos_sq_add_sin_sq cam.rot.y
  fin_cases i <;>
  · simp only [Primitive.vertex, Primitive.transformGeometry, Camera.cameraTransform,
      Camera.moveForward, Transform.ofPose, Transform.setRot, Transform.setRotX,
      Transform.setRotY, Transform.setRotZ, Transform.uninit, V3.rotate, V3.pmul, V3.add,
      V3.neg, hrotx, hrotz, Real.cos_zero, Real.sin_zero, Real.cos_add_pi_div_two,
      Real.sin_add_pi_div_two, Bool.false_eq_true, if_false]
    refine ⟨?_, ?_, ?_⟩
    · ring
    · ring
    · linear_combination (-d) * h

/-- Witness of C24: the default camera (all angles `0`), the distance `1` and
the world point `(1, 2, 5)`, whose view-space depth drops by `1`. -/
theorem moveForward_shifts_view_depth_witness :
    (((⟨⟨1, 2, 5⟩, ⟨0, 1, 5⟩, ⟨0, 0, 5⟩, true, ⟨255, 0, 0⟩, ⟨255, 0, 0⟩⟩ :
          Primitive ℝ).transformGeometry
        (((Camera.default : Camera ℝ).moveForward Real.cos Real.sin (Real.pi / 2)
          1).cameraTransform Real.cos Real.sin) false).vertex 0).z =
      (((⟨⟨1, 2, 5⟩, ⟨0, 1, 5⟩, ⟨0, 0, 5⟩, true, ⟨255, 0, 0⟩, ⟨255, 0, 0⟩⟩ :
          Primitive ℝ).transformGeometry
        ((Camera.default : Camera ℝ).cameraTransform Real.cos Real.sin) false).vertex 0).z -
        1 :=
  (moveForward_shifts_view_depth (Camera.default : Camera ℝ) 1
    ⟨⟨1, 2, 5⟩, ⟨0, 1, 5⟩, ⟨0, 0, 5⟩, true, ⟨255, 0, 0⟩, ⟨255, 0, 0⟩⟩ 0 rfl rfl).2.2

/-- C13 (the claim as stated fails): over the rationals, for `pos = (0, 0, 5)`
the vertex `(1, 1, 1)` of the primitives of `ColoredUnitCube(pos)` is not one
of the offset corners `(±1, ±1, ±1) + pos`, and the offset corner `(1, 1, 6)`
is not a vertex of the primitives. -/
theorem ColoredUnitCube_vertices_not_offset :
    ((⟨1, 1, 1⟩ : V3 ℚ) ∈
        (SceneObject.ColoredUnitCube (fun _ : ℚ => 1) (fun _ => 0) ⟨0, 0, 5⟩).vertices ∧
      (⟨1, 1, 1⟩ : V3 ℚ) ∉ SceneObject.offsetCubeCorners (⟨0, 0, 5⟩ : V3 ℚ)) ∧
    ((⟨1, 1, 6⟩ : V3 ℚ) ∈ SceneObject.offsetCubeCorners (⟨0, 0, 5⟩ : V3 ℚ) ∧
      (⟨1, 1, 6⟩ : V3 ℚ) ∉
        (SceneObject.ColoredUnitCube (fun _ : ℚ => 1) (fun _ => 0) ⟨0, 0, 5⟩).vertices) := by
  refine ⟨⟨?_, ?_⟩, ⟨?_, ?_⟩⟩
  · simp [SceneObject.vertices, SceneObject.ColoredUnitCube]
  · norm_num [SceneObject.offsetCubeCorners, SceneObject.unitCubeCorners, V3.add]
  · norm_num [SceneObject.offsetCubeCorners, SceneObject.unitCubeCorners, V3.add]
  · norm_num [SceneObject.vertices, SceneObject.ColoredUnitCube]

/-- C14 (the code differs from the claim): over the rationals, `u ^ v` has the
first and third component of the cross product and the negated second one; at
`u = (1, 1, 0)`, `v = (0, 0, 1)` it returns `(1, 1, 0)` where the cross product
is `(1, -1, 0)`, and its dot product with `u` is `2`, not `0`. -/
theorem cross_negates_second_component :
    (∀ u v : V3 ℚ,
      (u.cross v).x = (u.specCross v).x ∧ (u.cross v).y = -(u.specCross v).y ∧
        (u.cross v).z = (u.specCross v).z) ∧
    V3.cross (⟨1, 1, 0⟩ : V3 ℚ) ⟨0, 0, 1⟩ = ⟨1, 1, 0⟩ ∧
    V3.specCross (⟨1, 1, 0⟩ : V3 ℚ) ⟨0, 0, 1⟩ = ⟨1, -1, 0⟩ ∧
    (V3.cross (⟨1, 1, 0⟩ : V3 ℚ) ⟨0, 0, 1⟩).dot ⟨1, 1, 0⟩ = 2 := by
  refine ⟨fun u v => ⟨rfl, ?_, rfl⟩, ?_, ?_, ?_⟩
  · simp [V3.cross, V3.specCross]
  · simp [V3.cross]
  · simp [V3.specCross]
  · norm_num [V3.cross, V3.dot]

/-- C6: over the reals, `fovCoefficient` is
`canvasWidth / (focal * tan(fov * π / 360))`; with `focal = 1`, `fov = 90` and
`canvasWidth = 400` it is exactly `400`, and a primitive whose first vertex is
the view-space point `(1, 0, 5)` then has that vertex at `x = 80` after the
perspective divide and at `x = 480` after `canvasWidth` is added. -/
theorem fovCoefficient_formula_and_example :
    (∀ (cam : Camera ℝ) (canvasWidth : ℤ),
      cam.fovCoefficient Real.tan Real.pi canvasWidth =
        (canvasWidth : ℝ) / (cam.focal * Real.tan (cam.fov * Real.pi / 360))) ∧
    (∀ cam : Camera ℝ,
      ({ cam with fov := 90, focal := 1 } : Camera ℝ).fovCoefficient Real.tan Real.pi 400 =
        400) ∧
    (∀ (cam : Camera ℝ) (canvasHeight : ℤ) (p2 p3 : V3 ℝ) (cullable : Bool)
        (ambientColor diffuseColor : V3 ℝ),
      (Camera.perspectiveDivide
          (({ cam with fov := 90, focal := 1 } : Camera ℝ).fovCoefficient Real.tan Real.pi 400)
          ⟨⟨1, 0, 5⟩, p2, p3, cullable, ambientColor, diffuseColor⟩).p1.x = 80 ∧
      (({ cam with fov := 90, focal := 1 } : Camera ℝ).projectPrimitive Real.tan Real.pi 400
          canvasHeight ⟨⟨1, 0, 5⟩, p2, p3, cullable, ambientColor, diffuseColor⟩).p1.x = 480) := by
  have hangle : (90 : ℝ) * Real.pi / 360 = Real.pi / 4 := by ring
  have hcoef : ∀ cam : Camera ℝ,
      ({ cam with fov := 90, focal := 1 } : Camera ℝ).fovCoefficient Real.tan Real.pi 400 =
        400 := by
    intro cam
    simp [Camera.fovCoefficient, hangle, Real.tan_pi_div_four]
  refine ⟨fun _ _ => rfl, hcoef, ?_⟩
  intro cam canvasHeight p2 p3 cullable ambientColor diffuseColor
  simp only [Camera.projectPrimitive, hcoef]
  simp only [Camera.perspectiveDivide, Camera.screenMap]
  norm_num

/-- C3: over the reals, for every vector `v`, every angle `θ` and each single
axis (X, Y, Z in turn): rotating `v` about that axis by `θ`, the other two axes
at cosine `1` and sine `0`, and then rotating the result about the same axis by
`-θ` returns exactly `v`; the same holds with the cached values of a default
transform whose angle on that axis was set to `θ`, respectively `-θ`, by
`setRotX`, `setRotY`, `setRotZ` (its other two cached pairs are `1` and `0`). -/
theorem rotate_roundtrip_each_axis (v : V3 ℝ) (θ : ℝ) :
    ((v.rotate (Real.cos θ) (Real.sin θ) 1 0 1 0).rotate
        (Real.cos (-θ)) (Real.sin (-θ)) 1 0 1 0 = v ∧
      (v.rotate 1 0 (Real.cos θ) (Real.sin θ) 1 0).rotate
        1 0 (Real.cos (-θ)) (Real.sin (-θ)) 1 0 = v ∧
      (v.rotate 1 0 1 0 (Real.cos θ) (Real.sin θ)).rotate
        1 0 1 0 (Real.cos (-θ)) (Real.sin (-θ)) = v) ∧
    (((Transform.default Real.cos Real.sin).setRotX Real.cos Real.sin (-θ)).applyRotation
        (((Transform.default Real.cos Real.sin).setRotX Real.cos Real.sin θ).applyRotation v) = v ∧
      ((Transform.default Real.cos Real.sin).setRotY Real.cos Real.sin (-θ)).applyRotation
        (((Transform.default Real.cos Real.sin).setRotY Real.cos Real.sin θ).applyRotation v) = v ∧
      ((Transform.default Real.cos Real.sin).setRotZ Real.cos Real.sin (-θ)).applyRotation
        (((Transform.default Real.cos Real.sin).setRotZ Real.cos Real.sin θ).applyRotation v) = v) := by
  have h := Real.cos_sq_add_sin_sq θ
  obtain ⟨x, y, z⟩ := v
  refine ⟨⟨?_, ?_, ?_⟩, ⟨?_, ?_, ?_⟩⟩ <;>
  · simp only [Transform.applyRotation, Transform.default, Transform.setRot, Transform.setRotX,
      Transform.setRotY, Transform.setRotZ, Transform.uninit, V3.rotate, Real.cos_zero,
      Real.sin_zero, Real.cos_neg, Real.sin_neg]
    congr 1 <;>
      first
        | ring1
        | linear_combination x * h
        | linear_combination y * h
        | linear_combination z * h

end PerspectiveProjection
